import Mathlib

/-!
Verification of the ECI/ECEF frame-transform module (pymap3d eci.py) over a
shallow embedding.  NumPy arrays are modelled as a shape together with
row-major flat data; scalar-or-array values as a sum type; the trigonometric
functions are abstract parameters (c, s) over a commutative ring, so that the
development is exact-real (no floating point) and executable on concrete
rings such as the integers.  The external time-to-angle service
(juliandate / greenwichsrt) is modelled by passing its result gst directly,
and the optional astropy capability is modelled from the spec, since that
code is not part of the repository.
-/

set_option maxHeartbeats 1000000

/-- Shallow model of a NumPy ndarray: a shape and row-major flat data. -/
structure NDArray (K : Type) where
  shape : List Nat
  data : List K
  deriving DecidableEq

/-- Scalar-or-array duality of the module's inputs and outputs. -/
inductive PyVal (K : Type) where
  | scalar : K → PyVal K
  | arr : NDArray K → PyVal K
  deriving DecidableEq

variable {K : Type} [CommRing K]

/-- Model of ndarray.size: the total element count given by the shape. -/
def NDArray.size (a : NDArray K) : Nat := a.shape.prod

/-- Model of numpy.atleast_1d: a scalar or 0-d array becomes a 1-element
1-D array; other arrays pass through unchanged. -/
def atleast_1d (v : PyVal K) : NDArray K :=
  match v with
  | .scalar a => ⟨[1], [a]⟩
  | .arr a => if a.shape = [] then ⟨[1], a.data⟩ else a

/-- Model of ndarray.squeeze: every unit-length dimension is removed. -/
def NDArray.squeeze (a : NDArray K) : NDArray K :=
  ⟨a.shape.filter (fun m => m != 1), a.data⟩

/-- Model of indexing with the empty tuple, as in the source's
squeeze()[()]: a 0-d array yields a bare scalar, any other array itself. -/
def NDArray.getitem0 (a : NDArray K) : PyVal K :=
  if a.shape = [] then .scalar (a.data.headD 0) else .arr a

/-- Model of numpy.broadcast_to(g, n) for a one-element g, the only way the
source uses it: the single value replicated n times. -/
def broadcastTo1 (g : NDArray K) (n : Nat) : NDArray K :=
  ⟨[n], List.replicate n (g.data.headD 0)⟩

/-- The source's R3: the rotation matrix about the polar axis. -/
def R3 (c s : K → K) (θ : K) : Matrix (Fin 3) (Fin 3) K :=
  Matrix.of ![![c θ, s θ, 0], ![-(s θ), c θ, 0], ![0, 0, 1]]

/-- One row of the transform loop: a 3-vector taken to M @ v. -/
def rotPoint (M : Matrix (Fin 3) (Fin 3) K) (x y z : K) : K × K × K :=
  (M.mulVec ![x, y, z] 0, M.mulVec ![x, y, z] 1, M.mulVec ![x, y, z] 2)

/-- The source's row loop: each triplet is rotated by the matrix built from
its own angle, and the three output columns are collected. -/
def rotRows (Mf : K → Matrix (Fin 3) (Fin 3) K) (xs ys zs gs : List K) :
    List K × List K × List K :=
  let outs := (xs.zip (ys.zip (zs.zip gs))).map fun p =>
    rotPoint (Mf p.2.2.2) p.1 p.2.1 p.2.2.1
  (outs.map fun q => q.1, outs.map fun q => q.2.1, outs.map fun q => q.2.2)

/-- Comparison form for the broadcast rule: one fixed matrix applied to
every triplet. -/
def rotRowsConst (M : Matrix (Fin 3) (Fin 3) K) (xs ys zs : List K) :
    List K × List K × List K :=
  let outs := (xs.zip (ys.zip zs)).map fun p => rotPoint M p.1 p.2.1 p.2.2
  (outs.map fun q => q.1, outs.map fun q => q.2.1, outs.map fun q => q.2.2)

/-- The source's eci2ecef_numpy: coerce to at-least-1-D, check x/y/z shapes,
broadcast a single angle to x.shape[0] when x has more than one element,
check x.size against the angle count, rotate each row by R3(gst[i]), reshape
to the input shape and return squeezed values. -/
def eci2ecef_numpy (c s : K → K) (x y z gst : PyVal K) :
    Except String (PyVal K × PyVal K × PyVal K) :=
  let x1 := atleast_1d x
  let y1 := atleast_1d y
  let z1 := atleast_1d z
  let g1 := atleast_1d gst
  if x1.shape = y1.shape ∧ y1.shape = z1.shape then
    let g2 := if g1.size = 1 ∧ x1.size ≠ 1 then broadcastTo1 g1 (x1.shape.headD 0) else g1
    if x1.size = g2.size then
      let r := rotRows (fun g => R3 c s g) x1.data y1.data z1.data g2.data
      .ok ((NDArray.mk x1.shape r.1).squeeze.getitem0,
           (NDArray.mk y1.shape r.2.1).squeeze.getitem0,
           (NDArray.mk z1.shape r.2.2).squeeze.getitem0)
    else .error "shape mismatch x gst"
  else .error "shape mismatch x y z"

/-- Modelled from the spec: the external high-precision frame-transform
service (the astropy GCRS/ITRS capability, which is not part of this
repository).  At a fixed observation instant it is a linear frame transform
together with its inverse, per the spec's words that the ECEF to ECI
direction is the inverse transform of the ECI to ECEF direction. -/
structure AstropySvc (K : Type) [CommRing K] where
  Q : Matrix (Fin 3) (Fin 3) K
  Qinv : Matrix (Fin 3) (Fin 3) K
  hinv : Qinv * Q = 1
  hinv2 : Q * Qinv = 1

/-- Modelled from the spec: the external service applied elementwise, with
output shape matched to input shape (scalar in, scalar out). -/
def astropy_apply (M : Matrix (Fin 3) (Fin 3) K) (x y z : PyVal K) :
    PyVal K × PyVal K × PyVal K :=
  match x, y, z with
  | .scalar a, .scalar b, .scalar d =>
      (.scalar (M.mulVec ![a, b, d] 0), .scalar (M.mulVec ![a, b, d] 1),
       .scalar (M.mulVec ![a, b, d] 2))
  | .arr a, .arr b, .arr d =>
      let outs := (a.data.zip (b.data.zip d.data)).map fun p => rotPoint M p.1 p.2.1 p.2.2
      (.arr ⟨a.shape, outs.map fun q => q.1⟩, .arr ⟨b.shape, outs.map fun q => q.2.1⟩,
       .arr ⟨d.shape, outs.map fun q => q.2.2⟩)
  | _, _, _ => (x, y, z)

/-- The source's auto eci2ecef: try the astropy strategy, and on a NameError
(the capability is absent, modelled as cap = none) fall back to
eci2ecef_numpy. -/
def eci2ecef (cap : Option (AstropySvc K)) (c s : K → K) (x y z gst : PyVal K) :
    Except String (PyVal K × PyVal K × PyVal K) :=
  match cap with
  | some svc => .ok (astropy_apply svc.Q x y z)
  | none => eci2ecef_numpy c s x y z gst

/-- The source's auto ecef2eci: try the astropy strategy, and on a NameError
run the inline numpy branch, which rotates each row by the transpose of
R3(gst[i]).  Unlike eci2ecef_numpy this branch neither broadcasts a single
angle nor squeezes its outputs. -/
def ecef2eci (cap : Option (AstropySvc K)) (c s : K → K) (x y z gst : PyVal K) :
    Except String (PyVal K × PyVal K × PyVal K) :=
  match cap with
  | some svc => .ok (astropy_apply svc.Qinv x y z)
  | none =>
    let x1 := atleast_1d x
    let y1 := atleast_1d y
    let z1 := atleast_1d z
    let g1 := atleast_1d gst
    if x1.shape = y1.shape ∧ y1.shape = z1.shape then
      if x1.size = g1.size then
        let r := rotRows (fun g => (R3 c s g).transpose) x1.data y1.data z1.data g1.data
        .ok (.arr ⟨x1.shape, r.1⟩, .arr ⟨y1.shape, r.2.1⟩, .arr ⟨z1.shape, r.2.2⟩)
      else .error "assert x gst size"
    else .error "assert x y z shapes"

/-- Composition ECI to ECEF and back on the reduced-precision path, with the
same observation instant (same sidereal angle). -/
def roundtripNumpy (c s : K → K) (x y z gst : PyVal K) :
    Except String (PyVal K × PyVal K × PyVal K) := do
  let r ← eci2ecef_numpy c s x y z gst
  ecef2eci none c s r.1 r.2.1 r.2.2 gst

/-- Composition ECI to ECEF and back on the auto entry points, with the same
observation instant. -/
def roundtripAuto (cap : Option (AstropySvc K)) (c s : K → K) (x y z gst : PyVal K) :
    Except String (PyVal K × PyVal K × PyVal K) := do
  let r ← eci2ecef cap c s x y z gst
  ecef2eci cap c s r.1 r.2.1 r.2.2 gst

/-- Observable shape of a returned value: none for a bare scalar. -/
def outShape : PyVal K → Option (List Nat)
  | .scalar _ => none
  | .arr a => some a.shape

/-- Flat values carried by a returned value. -/
def dataOf : PyVal K → List K
  | .scalar v => [v]
  | .arr a => a.data

/-- Well-formedness of an input: data length agrees with the shape, as it
does for every real ndarray. -/
def PyVal.WF : PyVal K → Prop
  | .scalar _ => True
  | .arr a => a.data.length = a.shape.prod

/-- Shape left after the source's squeeze()[()] step: none means a bare
scalar was returned. -/
def squeezedShapeOpt (sh : List Nat) : Option (List Nat) :=
  let t := sh.filter (fun m => m != 1)
  if t = [] then none else some t

/-- Transform direction of a module operation. -/
inductive Direction where
  | eciToEcef
  | ecefToEci
  deriving DecidableEq, Fintype

/-- Module-level operations defined by the source file eci.py. -/
inductive ModuleFunc where
  | eci2ecefF
  | eci2ecefAstropyF
  | eci2ecefNumpyF
  | ecef2eciF
  | r3F
  deriving DecidableEq, Fintype

/-- Which module operations compute Strategy B directly (bypassing the
high-precision capability), and for which direction: only eci2ecef_numpy
does, for the ECI to ECEF direction. -/
def strategyBEntry : ModuleFunc → Option Direction
  | .eci2ecefNumpyF => some .eciToEcef
  | _ => none

deriving instance DecidableEq for Except

/-- Concrete cosine stand-in for witnesses over the integers. -/
def c0 : ℤ → ℤ := fun _ => 1

/-- Concrete sine stand-in for witnesses over the integers. -/
def s0 : ℤ → ℤ := fun _ => 0

omit [CommRing K] in
/-- Eta rule for length-3 vectors. -/
lemma fin3_eta (v : Fin 3 → K) : ![v 0, v 1, v 2] = v := by
  funext i
  fin_cases i <;> rfl

/-- Transpose of R3 written out entrywise. -/
lemma R3_transpose_of (c s : K → K) (θ : K) :
    (R3 c s θ).transpose =
      Matrix.of ![![c θ, -(s θ), 0], ![s θ, c θ, 0], ![0, 0, 1]] := by
  ext i j
  fin_cases i <;> fin_cases j <;> rfl

/-- Left orthogonality of R3, from the Pythagorean identity. -/
lemma R3_transpose_mul_R3 (c s : K → K) (θ : K)
    (hp : c θ * c θ + s θ * s θ = 1) :
    (R3 c s θ).transpose * R3 c s θ = 1 := by
  rw [R3_transpose_of]
  ext i j
  fin_cases i <;> fin_cases j <;>
    simp [R3, Matrix.mul_apply, Fin.sum_univ_three, Matrix.one_apply] <;>
    first
      | linear_combination hp
      | ring

/-- Applying R3 and then its transpose recovers the vector. -/
lemma R3_roundtrip_vec (c s : K → K) (θ : K)
    (hp : c θ * c θ + s θ * s θ = 1) (v : Fin 3 → K) :
    (R3 c s θ).transpose.mulVec ((R3 c s θ).mulVec v) = v := by
  rw [Matrix.mulVec_mulVec, R3_transpose_mul_R3 c s θ hp, Matrix.one_mulVec]

/-- Claim C6: the Sidereal Rotation Engine's matrix constructor R3 returns
exactly the 3x3 matrix with rows [cos t, sin t, 0], [-sin t, cos t, 0],
[0, 0, 1]; it is a total pure function of the angle, and the ECI to ECEF
transform applies this matrix directly while the ECEF to ECI transform
applies its transpose. -/
theorem R3_matrix_confirmed (c s : K → K) (θ : K) :
    R3 c s θ 0 0 = c θ ∧ R3 c s θ 0 1 = s θ ∧ R3 c s θ 0 2 = 0 ∧
    R3 c s θ 1 0 = -(s θ) ∧ R3 c s θ 1 1 = c θ ∧ R3 c s θ 1 2 = 0 ∧
    R3 c s θ 2 0 = 0 ∧ R3 c s θ 2 1 = 0 ∧ R3 c s θ 2 2 = 1 ∧
    (∀ a b d : K,
      eci2ecef_numpy c s (.scalar a) (.scalar b) (.scalar d) (.scalar θ) =
        .ok (.scalar ((R3 c s θ).mulVec ![a, b, d] 0),
             .scalar ((R3 c s θ).mulVec ![a, b, d] 1),
             .scalar ((R3 c s θ).mulVec ![a, b, d] 2)) ∧
      ecef2eci none c s (.scalar a) (.scalar b) (.scalar d) (.scalar θ) =
        .ok (.arr ⟨[1], [(R3 c s θ).transpose.mulVec ![a, b, d] 0]⟩,
             .arr ⟨[1], [(R3 c s θ).transpose.mulVec ![a, b, d] 1]⟩,
             .arr ⟨[1], [(R3 c s θ).transpose.mulVec ![a, b, d] 2]⟩)) :=
  ⟨rfl, rfl, rfl, rfl, rfl, rfl, rfl, rfl, rfl, fun _ _ _ => ⟨rfl, rfl⟩⟩

/-- Claim C7: for every angle, R3 times its transpose is the 3x3 identity
(exactly, over the exact-real embedding, given the Pythagorean identity for
the trigonometric pair). -/
theorem R3_orthogonal_confirmed (c s : K → K) (θ : K)
    (hp : c θ * c θ + s θ * s θ = 1) :
    R3 c s θ * (R3 c s θ).transpose = 1 := by
  have ht : (R3 c s θ).transpose =
      Matrix.of ![![c θ, -(s θ), 0], ![s θ, c θ, 0], ![0, 0, 1]] := by
    ext i j
    fin_cases i <;> fin_cases j <;> rfl
  rw [ht]
  ext i j
  fin_cases i <;> fin_cases j <;>
    simp [R3, Matrix.mul_apply, Fin.sum_univ_three, Matrix.one_apply] <;>
    first
      | linear_combination hp
      | ring

theorem R3_orthogonal_confirmed_witness :
    (c0 0 * c0 0 + s0 0 * s0 0 = 1) ∧
      R3 c0 s0 0 * (R3 c0 s0 0).transpose = 1 :=
  ⟨by decide, R3_orthogonal_confirmed c0 s0 0 (by decide)⟩

/-- Claim C4: each auto entry point uses the high-precision strategy when
the capability is present and otherwise falls back to the Sidereal Rotation
Engine strategy silently; on the fallback path the only errors ever
surfaced are the validation errors, never a capability-absence error. -/
theorem dispatch_policy_confirmed (c s : K → K) (x y z g : PyVal K) :
    eci2ecef none c s x y z g = eci2ecef_numpy c s x y z g ∧
    (∀ svc : AstropySvc K,
      eci2ecef (some svc) c s x y z g = .ok (astropy_apply svc.Q x y z)) ∧
    (∀ svc : AstropySvc K,
      ecef2eci (some svc) c s x y z g = .ok (astropy_apply svc.Qinv x y z)) ∧
    (∀ e : String, ecef2eci none c s x y z g = .error e →
      e = "assert x y z shapes" ∨ e = "assert x gst size") ∧
    (∀ e : String, eci2ecef none c s x y z g = .error e →
      e = "shape mismatch x y z" ∨ e = "shape mismatch x gst") := by
  refine ⟨rfl, fun _ => rfl, fun _ => rfl, ?_, ?_⟩
  · intro e he
    simp only [ecef2eci] at he
    split_ifs at he <;> simp_all
  · intro e he
    simp only [eci2ecef, eci2ecef_numpy] at he
    split_ifs at he <;> simp_all

/-- Claim C5 counterexample: no module-level operation exposes the Sidereal
Rotation Engine strategy directly for the ECEF to ECI direction (that code
exists only inline in the fallback branch of the auto entry point). -/
theorem strategyB_ecef2eci_missing_cex :
    ¬ ∃ f : ModuleFunc, strategyBEntry f = some Direction.ecefToEci := by
  decide

/-- Claim C5 (amended): only the ECI to ECEF direction has an explicitly
named Strategy-B entry point, eci2ecef_numpy, and its result equals the
fallback result of the auto entry point; the ECEF to ECI direction has no
such entry point. -/
theorem strategyB_entry_amended (c s : K → K) (x y z g : PyVal K) :
    strategyBEntry ModuleFunc.eci2ecefNumpyF = some Direction.eciToEcef ∧
    eci2ecef none c s x y z g = eci2ecef_numpy c s x y z g ∧
    (¬ ∃ f : ModuleFunc, strategyBEntry f = some Direction.ecefToEci) :=
  ⟨rfl, rfl, by decide⟩

/-- Claim C8: on the Sidereal Rotation Engine path of both directions,
non-matching x/y/z shapes make the call fail with the validation error and
no partial result (the shape check precedes any transform work). -/
theorem shape_validation_confirmed (c s : K → K) (x y z g : PyVal K)
    (h : ¬((atleast_1d x).shape = (atleast_1d y).shape ∧
           (atleast_1d y).shape = (atleast_1d z).shape)) :
    eci2ecef_numpy c s x y z g = .error "shape mismatch x y z" ∧
    ecef2eci none c s x y z g = .error "assert x y z shapes" := by
  constructor
  · unfold eci2ecef_numpy
    rw [if_neg h]
  · unfold ecef2eci
    rw [if_neg h]

theorem shape_validation_confirmed_witness :
    (¬((atleast_1d (K := ℤ) (.arr ⟨[2], [1, 2]⟩)).shape =
         (atleast_1d (K := ℤ) (.arr ⟨[1], [3]⟩)).shape ∧
       (atleast_1d (K := ℤ) (.arr ⟨[1], [3]⟩)).shape =
         (atleast_1d (K := ℤ) (.arr ⟨[1], [4]⟩)).shape)) ∧
    eci2ecef_numpy c0 s0 (.arr ⟨[2], [1, 2]⟩) (.arr ⟨[1], [3]⟩)
        (.arr ⟨[1], [4]⟩) (.scalar 0) = .error "shape mismatch x y z" ∧
    ecef2eci none c0 s0 (.arr ⟨[2], [1, 2]⟩) (.arr ⟨[1], [3]⟩)
        (.arr ⟨[1], [4]⟩) (.scalar 0) = .error "assert x y z shapes" :=
  ⟨by decide,
   (shape_validation_confirmed c0 s0 _ _ _ _ (by decide)).1,
   (shape_validation_confirmed c0 s0 _ _ _ _ (by decide)).2⟩

/-- Claim C1 counterexample: on the reduced-precision path, composing ECI to
ECEF and back with the same instant does not return the original vector for
a 2-element array input: the ECEF to ECI step fails its angle-count
validation (that direction never broadcasts the single sidereal angle), so
the composition surfaces an error instead of the vector. -/
theorem eci_roundtrip_array_cex :
    roundtripNumpy c0 s0 (.arr ⟨[2], [1, 2]⟩) (.arr ⟨[2], [3, 4]⟩)
      (.arr ⟨[2], [5, 6]⟩) (.scalar 0) = .error "assert x gst size" := by
  decide

/-- Claim C1 (amended): the inverse law holds exactly, over the exact-real
embedding, for single-point inputs: the reduced-precision composition
returns the original component values (as 1-element arrays, per the ECEF to
ECI shape convention), the auto path with the capability present returns
the original scalars, and the auto path with the capability absent is the
reduced-precision composition.  Multi-element arrays instead fail
validation in the ECEF to ECI step (see the counterexample). -/
theorem eci_roundtrip_amended (c s : K → K) (θ vx vy vz : K)
    (hp : c θ * c θ + s θ * s θ = 1) :
    roundtripNumpy c s (.scalar vx) (.scalar vy) (.scalar vz) (.scalar θ) =
      .ok (.arr ⟨[1], [vx]⟩, .arr ⟨[1], [vy]⟩, .arr ⟨[1], [vz]⟩) ∧
    (∀ svc : AstropySvc K,
      roundtripAuto (some svc) c s (.scalar vx) (.scalar vy) (.scalar vz) (.scalar θ) =
        .ok (.scalar vx, .scalar vy, .scalar vz)) ∧
    roundtripAuto none c s (.scalar vx) (.scalar vy) (.scalar vz) (.scalar θ) =
      roundtripNumpy c s (.scalar vx) (.scalar vy) (.scalar vz) (.scalar θ) := by
  refine ⟨?_, fun svc => ?_, rfl⟩
  · have base : roundtripNumpy c s (.scalar vx) (.scalar vy) (.scalar vz) (.scalar θ) =
        .ok (.arr ⟨[1], [(R3 c s θ).transpose.mulVec
                ![(R3 c s θ).mulVec ![vx, vy, vz] 0,
                  (R3 c s θ).mulVec ![vx, vy, vz] 1,
                  (R3 c s θ).mulVec ![vx, vy, vz] 2] 0]⟩,
             .arr ⟨[1], [(R3 c s θ).transpose.mulVec
                ![(R3 c s θ).mulVec ![vx, vy, vz] 0,
                  (R3 c s θ).mulVec ![vx, vy, vz] 1,
                  (R3 c s θ).mulVec ![vx, vy, vz] 2] 1]⟩,
             .arr ⟨[1], [(R3 c s θ).transpose.mulVec
                ![(R3 c s θ).mulVec ![vx, vy, vz] 0,
                  (R3 c s θ).mulVec ![vx, vy, vz] 1,
                  (R3 c s θ).mulVec ![vx, vy, vz] 2] 2]⟩) := rfl
    rw [base, fin3_eta ((R3 c s θ).mulVec ![vx, vy, vz]),
        R3_roundtrip_vec c s θ hp ![vx, vy, vz]]
    rfl
  · have base2 : roundtripAuto (some svc) c s (.scalar vx) (.scalar vy) (.scalar vz)
        (.scalar θ) =
        .ok (.scalar (svc.Qinv.mulVec
                ![svc.Q.mulVec ![vx, vy, vz] 0, svc.Q.mulVec ![vx, vy, vz] 1,
                  svc.Q.mulVec ![vx, vy, vz] 2] 0),
             .scalar (svc.Qinv.mulVec
                ![svc.Q.mulVec ![vx, vy, vz] 0, svc.Q.mulVec ![vx, vy, vz] 1,
                  svc.Q.mulVec ![vx, vy, vz] 2] 1),
             .scalar (svc.Qinv.mulVec
                ![svc.Q.mulVec ![vx, vy, vz] 0, svc.Q.mulVec ![vx, vy, vz] 1,
                  svc.Q.mulVec ![vx, vy, vz] 2] 2)) := rfl
    rw [base2, fin3_eta (svc.Q.mulVec ![vx, vy, vz]), Matrix.mulVec_mulVec,
        svc.hinv, Matrix.one_mulVec]
    rfl

theorem eci_roundtrip_amended_witness :
    (c0 0 * c0 0 + s0 0 * s0 0 = 1) ∧
    roundtripNumpy c0 s0 (.scalar 8) (.scalar 9) (.scalar 10) (.scalar 0) =
      .ok (.arr ⟨[1], [8]⟩, .arr ⟨[1], [9]⟩, .arr ⟨[1], [10]⟩) :=
  ⟨by decide, (eci_roundtrip_amended c0 s0 0 8 9 10 (by decide)).1⟩

/-- Replicating one angle over the rows applies the same matrix to every
point. -/
lemma rotRows_replicate (Mf : K → Matrix (Fin 3) (Fin 3) K) (θ : K) :
    ∀ (xs ys zs : List K),
      rotRows Mf xs ys zs (List.replicate xs.length θ) = rotRowsConst (Mf θ) xs ys zs
  | [], _, _ => rfl
  | _ :: _, [], _ => rfl
  | _ :: _, _ :: _, [] => rfl
  | x :: xs, y :: ys, z :: zs => by
      have ih := rotRows_replicate Mf θ xs ys zs
      simp only [rotRows, rotRowsConst, List.length_cons, List.replicate_succ,
        List.zip_cons_cons, List.map_cons, Prod.ext_iff] at ih ⊢
      exact ⟨by rw [ih.1], by rw [ih.2.1], by rw [ih.2.2]⟩

/-- Claim C2 counterexample: in the ECEF to ECI fallback, a single sidereal
angle together with a 2-element position array does not succeed: the angle
is not broadcast in that direction, so the size assertion fails. -/
theorem single_angle_ecef2eci_cex :
    ecef2eci none c0 s0 (.arr ⟨[2], [10, 20]⟩) (.arr ⟨[2], [30, 40]⟩)
      (.arr ⟨[2], [50, 60]⟩) (.scalar 0) = .error "assert x gst size" := by
  decide

/-- Claim C2 (amended): in eci2ecef_numpy a single sidereal angle with an
N-element 1-D position array (N greater than 1) succeeds and applies that
same angle to all N points, and an angle array with M greater than 1 and M
different from N fails validation in both directions; but in the ECEF to
ECI fallback the single angle is not broadcast, so a single angle with an
N-element array (N greater than 1) also fails validation there. -/
theorem broadcast_validation_amended (c s : K → K) (n : Nat) (xs ys zs : List K)
    (θ : K) (hn : 1 < n) (hx : xs.length = n) :
    (eci2ecef_numpy c s (.arr ⟨[n], xs⟩) (.arr ⟨[n], ys⟩) (.arr ⟨[n], zs⟩)
        (.scalar θ) =
      .ok (.arr ⟨[n], (rotRowsConst (R3 c s θ) xs ys zs).1⟩,
           .arr ⟨[n], (rotRowsConst (R3 c s θ) xs ys zs).2.1⟩,
           .arr ⟨[n], (rotRowsConst (R3 c s θ) xs ys zs).2.2⟩)) ∧
    (∀ g : PyVal K, 1 < (atleast_1d g).size → (atleast_1d g).size ≠ n →
      eci2ecef_numpy c s (.arr ⟨[n], xs⟩) (.arr ⟨[n], ys⟩) (.arr ⟨[n], zs⟩) g =
        .error "shape mismatch x gst" ∧
      ecef2eci none c s (.arr ⟨[n], xs⟩) (.arr ⟨[n], ys⟩) (.arr ⟨[n], zs⟩) g =
        .error "assert x gst size") ∧
    (ecef2eci none c s (.arr ⟨[n], xs⟩) (.arr ⟨[n], ys⟩) (.arr ⟨[n], zs⟩)
        (.scalar θ) = .error "assert x gst size") := by
  have hne1 : n ≠ 1 := by omega
  have hx1 : (atleast_1d (K := K) (.arr ⟨[n], xs⟩)).size = n := by
    simp [atleast_1d, NDArray.size]
  refine ⟨?_, ?_, ?_⟩
  · simp only [eci2ecef_numpy]
    rw [if_pos (show (atleast_1d (K := K) (.arr ⟨[n], xs⟩)).shape =
          (atleast_1d (K := K) (.arr ⟨[n], ys⟩)).shape ∧
        (atleast_1d (K := K) (.arr ⟨[n], ys⟩)).shape =
          (atleast_1d (K := K) (.arr ⟨[n], zs⟩)).shape from ⟨rfl, rfl⟩)]
    rw [if_pos (show (atleast_1d (K := K) (.scalar θ)).size = 1 ∧
          (atleast_1d (K := K) (.arr ⟨[n], xs⟩)).size ≠ 1 from
        ⟨rfl, by rw [hx1]; exact hne1⟩)]
    rw [if_pos (show (atleast_1d (K := K) (.arr ⟨[n], xs⟩)).size =
          (broadcastTo1 (atleast_1d (K := K) (.scalar θ))
            ((atleast_1d (K := K) (.arr ⟨[n], xs⟩)).shape.headD 0)).size from rfl)]
    rw [show atleast_1d (K := K) (.arr ⟨[n], xs⟩) = ⟨[n], xs⟩ from rfl,
        show atleast_1d (K := K) (.arr ⟨[n], ys⟩) = ⟨[n], ys⟩ from rfl,
        show atleast_1d (K := K) (.arr ⟨[n], zs⟩) = ⟨[n], zs⟩ from rfl,
        show atleast_1d (K := K) (.scalar θ) = ⟨[1], [θ]⟩ from rfl]
    dsimp only [broadcastTo1, List.headD]
    rw [show List.replicate n θ = List.replicate xs.length θ from by rw [hx]]
    rw [rotRows_replicate]
    have hfil : [n].filter (fun m => m != 1) = [n] := by
      simp [List.filter_cons, hne1]
    simp [NDArray.squeeze, NDArray.getitem0, hfil]
  · intro g hm1 hm2
    have hgne1 : (atleast_1d g).size ≠ 1 := by omega
    constructor
    · simp only [eci2ecef_numpy]
      rw [if_pos (show (atleast_1d (K := K) (.arr ⟨[n], xs⟩)).shape =
            (atleast_1d (K := K) (.arr ⟨[n], ys⟩)).shape ∧
          (atleast_1d (K := K) (.arr ⟨[n], ys⟩)).shape =
            (atleast_1d (K := K) (.arr ⟨[n], zs⟩)).shape from ⟨rfl, rfl⟩)]
      rw [if_neg (show ¬((atleast_1d g).size = 1 ∧
            (atleast_1d (K := K) (.arr ⟨[n], xs⟩)).size ≠ 1) from
          fun hc => hgne1 hc.1)]
      rw [if_neg (show ¬((atleast_1d (K := K) (.arr ⟨[n], xs⟩)).size =
            (atleast_1d g).size) from
          fun hc => hm2 (by rw [hx1] at hc; exact hc.symm))]
    · simp only [ecef2eci]
      rw [if_pos (show (atleast_1d (K := K) (.arr ⟨[n], xs⟩)).shape =
            (atleast_1d (K := K) (.arr ⟨[n], ys⟩)).shape ∧
          (atleast_1d (K := K) (.arr ⟨[n], ys⟩)).shape =
            (atleast_1d (K := K) (.arr ⟨[n], zs⟩)).shape from ⟨rfl, rfl⟩)]
      rw [if_neg (show ¬((atleast_1d (K := K) (.arr ⟨[n], xs⟩)).size =
            (atleast_1d g).size) from
          fun hc => hm2 (by rw [hx1] at hc; exact hc.symm))]
  · simp only [ecef2eci]
    rw [if_pos (show (atleast_1d (K := K) (.arr ⟨[n], xs⟩)).shape =
          (atleast_1d (K := K) (.arr ⟨[n], ys⟩)).shape ∧
        (atleast_1d (K := K) (.arr ⟨[n], ys⟩)).shape =
          (atleast_1d (K := K) (.arr ⟨[n], zs⟩)).shape from ⟨rfl, rfl⟩)]
    rw [if_neg (show ¬((atleast_1d (K := K) (.arr ⟨[n], xs⟩)).size =
          (atleast_1d (K := K) (.scalar θ)).size) from
        fun hc => hne1 (by rw [hx1] at hc; simpa [atleast_1d, NDArray.size] using hc))]

theorem broadcast_validation_amended_witness :
    ((1 : Nat) < 2 ∧ ([1, 2] : List ℤ).length = 2) ∧
    eci2ecef_numpy c0 s0 (.arr ⟨[2], [1, 2]⟩) (.arr ⟨[2], [3, 4]⟩)
        (.arr ⟨[2], [5, 6]⟩) (.scalar 0) =
      .ok (.arr ⟨[2], (rotRowsConst (R3 c0 s0 0) [1, 2] [3, 4] [5, 6]).1⟩,
           .arr ⟨[2], (rotRowsConst (R3 c0 s0 0) [1, 2] [3, 4] [5, 6]).2.1⟩,
           .arr ⟨[2], (rotRowsConst (R3 c0 s0 0) [1, 2] [3, 4] [5, 6]).2.2⟩) :=
  ⟨⟨by decide, by decide⟩,
   (broadcast_validation_amended c0 s0 2 [1, 2] [3, 4] [5, 6] 0 (by decide)
     (by decide)).1⟩

/-- Shape observed after the squeeze()[()] step. -/
lemma outShape_squeeze_getitem0 (sh : List Nat) (ds : List K) :
    outShape ((NDArray.mk sh ds).squeeze.getitem0) = squeezedShapeOpt sh := by
  by_cases hemp : sh.filter (fun m => m != 1) = [] <;>
    simp [NDArray.squeeze, NDArray.getitem0, squeezedShapeOpt, outShape, hemp]

/-- Decomposition of a successful eci2ecef_numpy call: the x/y/z shapes
matched, the angle list is either the broadcast of a single angle or the
angle data itself (each with the corresponding size check), and the three
results are the squeezed reshaped columns of the row loop. -/
lemma eci2ecef_numpy_ok_decomp (c s : K → K) (x y z g : PyVal K)
    (a b d : PyVal K)
    (h : eci2ecef_numpy c s x y z g = .ok (a, b, d)) :
    ((atleast_1d x).shape = (atleast_1d y).shape ∧
     (atleast_1d y).shape = (atleast_1d z).shape) ∧
    ∃ gs : List K,
      ((gs = (broadcastTo1 (atleast_1d g) ((atleast_1d x).shape.headD 0)).data ∧
        (atleast_1d (K := K) x).size =
          (broadcastTo1 (atleast_1d (K := K) g)
            ((atleast_1d (K := K) x).shape.headD 0)).size) ∨
       (gs = (atleast_1d g).data ∧
        (atleast_1d (K := K) x).size = (atleast_1d (K := K) g).size)) ∧
      a = (NDArray.mk (atleast_1d x).shape
            (rotRows (fun gg => R3 c s gg) (atleast_1d x).data (atleast_1d y).data
              (atleast_1d z).data gs).1).squeeze.getitem0 ∧
      b = (NDArray.mk (atleast_1d y).shape
            (rotRows (fun gg => R3 c s gg) (atleast_1d x).data (atleast_1d y).data
              (atleast_1d z).data gs).2.1).squeeze.getitem0 ∧
      d = (NDArray.mk (atleast_1d z).shape
            (rotRows (fun gg => R3 c s gg) (atleast_1d x).data (atleast_1d y).data
              (atleast_1d z).data gs).2.2).squeeze.getitem0 := by
  simp only [eci2ecef_numpy] at h
  split_ifs at h with h1 h2 h3 h4
  all_goals simp only [Except.ok.injEq, Prod.mk.injEq] at h
  · exact ⟨h1, _, .inl ⟨rfl, h3⟩, h.1.symm, h.2.1.symm, h.2.2.symm⟩
  · exact ⟨h1, _, .inr ⟨rfl, h4⟩, h.1.symm, h.2.1.symm, h.2.2.symm⟩

/-- Decomposition of a successful fallback ecef2eci call: shapes and sizes
matched and the three results are the unsqueezed reshaped columns of the
transposed row loop. -/
lemma ecef2eci_none_ok_decomp (c s : K → K) (x y z g : PyVal K)
    (a b d : PyVal K)
    (h : ecef2eci none c s x y z g = .ok (a, b, d)) :
    ((atleast_1d x).shape = (atleast_1d y).shape ∧
     (atleast_1d y).shape = (atleast_1d z).shape) ∧
    (atleast_1d (K := K) x).size = (atleast_1d (K := K) g).size ∧
    a = .arr ⟨(atleast_1d x).shape,
          (rotRows (fun gg => (R3 c s gg).transpose) (atleast_1d x).data
            (atleast_1d y).data (atleast_1d z).data (atleast_1d g).data).1⟩ ∧
    b = .arr ⟨(atleast_1d y).shape,
          (rotRows (fun gg => (R3 c s gg).transpose) (atleast_1d x).data
            (atleast_1d y).data (atleast_1d z).data (atleast_1d g).data).2.1⟩ ∧
    d = .arr ⟨(atleast_1d z).shape,
          (rotRows (fun gg => (R3 c s gg).transpose) (atleast_1d x).data
            (atleast_1d y).data (atleast_1d z).data (atleast_1d g).data).2.2⟩ := by
  simp only [ecef2eci] at h
  split_ifs at h with h1 h2
  simp only [Except.ok.injEq, Prod.mk.injEq] at h
  exact ⟨h1, h2, h.1.symm, h.2.1.symm, h.2.2.symm⟩

/-- Claim C3 counterexample: a 1-element array input of shape [1] to
eci2ecef_numpy produces bare scalar outputs, not outputs of shape [1], so
array shape is not always preserved. -/
theorem shape_preservation_cex :
    eci2ecef_numpy c0 s0 (.arr ⟨[1], [5]⟩) (.arr ⟨[1], [6]⟩) (.arr ⟨[1], [7]⟩)
        (.scalar 0) = .ok (.scalar 5, .scalar 6, .scalar 7) ∧
    outShape (K := ℤ) (.scalar 5) ≠ some [1] :=
  ⟨by decide, by decide⟩

/-- Claim C3 (amended): on a successful call, eci2ecef_numpy returns values
whose shape is the input shape with every unit-length dimension removed
(collapsing to a bare scalar when none remain, so scalar input gives scalar
output and shapes without unit dimensions are preserved); the fallback
ecef2eci branch preserves array shapes exactly but returns 1-element arrays
even for scalar inputs; and the high-precision strategy, modelled from the
spec, preserves the observable shape in both directions. -/
theorem shape_mapping_amended (c s : K → K) (x y z g : PyVal K)
    (a b d : PyVal K) :
    (eci2ecef_numpy c s x y z g = .ok (a, b, d) →
      outShape a = squeezedShapeOpt (atleast_1d x).shape ∧
      outShape b = squeezedShapeOpt (atleast_1d y).shape ∧
      outShape d = squeezedShapeOpt (atleast_1d z).shape) ∧
    (ecef2eci none c s x y z g = .ok (a, b, d) →
      outShape a = some (atleast_1d x).shape ∧
      outShape b = some (atleast_1d y).shape ∧
      outShape d = some (atleast_1d z).shape) ∧
    (∀ M : Matrix (Fin 3) (Fin 3) K,
      outShape (astropy_apply M x y z).1 = outShape x ∧
      outShape (astropy_apply M x y z).2.1 = outShape y ∧
      outShape (astropy_apply M x y z).2.2 = outShape z) := by
  refine ⟨?_, ?_, ?_⟩
  · intro h
    obtain ⟨-, gs, -, ha, hb, hd⟩ := eci2ecef_numpy_ok_decomp c s x y z g a b d h
    subst ha hb hd
    exact ⟨outShape_squeeze_getitem0 _ _, outShape_squeeze_getitem0 _ _,
      outShape_squeeze_getitem0 _ _⟩
  · intro h
    obtain ⟨-, -, ha, hb, hd⟩ := ecef2eci_none_ok_decomp c s x y z g a b d h
    subst ha hb hd
    exact ⟨rfl, rfl, rfl⟩
  · intro M
    cases x <;> cases y <;> cases z <;> simp [astropy_apply, outShape]

/-- Shapes whose total element count is 1 consist only of unit dimensions,
so squeezing removes them all. -/
lemma filter_ne_one_of_prod_one : ∀ (sh : List Nat), sh.prod = 1 →
    sh.filter (fun m => m != 1) = []
  | [], _ => rfl
  | a :: l, hp => by
      have hal : a = 1 ∧ l.prod = 1 := by
        rw [List.prod_cons] at hp
        exact ⟨Nat.eq_one_of_mul_eq_one_right hp,
          by rwa [Nat.eq_one_of_mul_eq_one_right hp, Nat.one_mul] at hp⟩
      obtain ⟨rfl, hl⟩ := hal
      simp [List.filter_cons, filter_ne_one_of_prod_one l hl]

/-- No unit dimension survives the squeeze filter. -/
lemma one_not_mem_filter (sh : List Nat) : 1 ∉ sh.filter (fun m => m != 1) := by
  simp [List.mem_filter]

/-- A shape all of whose surviving dimensions were removed had total count 1. -/
lemma prod_one_of_filter_nil (sh : List Nat)
    (hf : sh.filter (fun m => m != 1) = []) : sh.prod = 1 := by
  have hall : ∀ m ∈ sh, m = 1 := by
    intro m hm
    by_contra hne
    have : m ∈ sh.filter (fun m => m != 1) := List.mem_filter.mpr ⟨hm, by simpa using hne⟩
    simp [hf] at this
  exact List.prod_eq_one hall

/-- Data carried through the squeeze()[()] step, for well-formed arrays. -/
lemma dataOf_squeeze_getitem0 (sh : List Nat) (ds : List K)
    (hlen : ds.length = sh.prod) :
    dataOf ((NDArray.mk sh ds).squeeze.getitem0) = ds := by
  by_cases hemp : sh.filter (fun m => m != 1) = []
  · have hprod : sh.prod = 1 := prod_one_of_filter_nil sh hemp
    obtain ⟨v, rfl⟩ := List.length_eq_one.mp (by rw [hlen, hprod])
    simp [NDArray.squeeze, NDArray.getitem0, hemp, dataOf]
  · simp [NDArray.squeeze, NDArray.getitem0, hemp, dataOf]

omit [CommRing K] in
/-- Well-formed inputs stay well-formed through atleast_1d. -/
lemma atleast_1d_length (v : PyVal K) (hw : v.WF) :
    (atleast_1d v).data.length = (atleast_1d v).shape.prod := by
  cases v with
  | scalar a => simp [atleast_1d]
  | arr a =>
    by_cases hsh : a.shape = []
    · have hl : a.data.length = 1 := by simpa [PyVal.WF, hsh] using hw
      simp [atleast_1d, hsh, hl]
    · simpa [atleast_1d, hsh] using hw

/-- Claim C9 witness support and C10 core: when each per-row matrix fixes
the third coordinate, the third output column of the row loop is the third
input column. -/
lemma rotRows_third (Mf : K → Matrix (Fin 3) (Fin 3) K)
    (hMf : ∀ g a b d : K, (Mf g).mulVec ![a, b, d] 2 = d) :
    ∀ (xs ys zs gs : List K), ys.length = xs.length → zs.length = xs.length →
      gs.length = xs.length → (rotRows Mf xs ys zs gs).2.2 = zs
  | [], _, [], _, _, _, _ => rfl
  | [], _, _ :: _, _, _, h2, _ => by simp at h2
  | _ :: _, [], _, _, h1, _, _ => by simp at h1
  | _ :: _, _ :: _, [], _, _, h2, _ => by simp at h2
  | _ :: _, _ :: _, _ :: _, [], _, _, h3 => by simp at h3
  | xh :: xt, yh :: yt, zh :: zt, gh :: gt, h1, h2, h3 => by
      have ih := rotRows_third Mf hMf xt yt zt gt (by simpa using h1)
        (by simpa using h2) (by simpa using h3)
      simp only [rotRows, List.zip_cons_cons, List.map_cons] at ih ⊢
      rw [show (rotPoint (Mf gh) xh yh zh).2.2 = zh from hMf gh xh yh zh, ih]

/-- R3 fixes the third coordinate. -/
lemma R3_mulVec_third (c s : K → K) (g a b d : K) :
    (R3 c s g).mulVec ![a, b, d] 2 = d := by
  simp [R3, Matrix.mulVec, Matrix.dotProduct, Fin.sum_univ_three]

/-- The transpose of R3 fixes the third coordinate. -/
lemma R3_transpose_mulVec_third (c s : K → K) (g a b d : K) :
    (R3 c s g).transpose.mulVec ![a, b, d] 2 = d := by
  rw [R3_transpose_of]
  simp [Matrix.mulVec, Matrix.dotProduct, Fin.sum_univ_three]

/-- Claim C9: in eci2ecef_numpy, the result is squeezed before return, so
every success whose (at-least-1-D) x has exactly one element yields bare
scalar outputs, and no unit-length dimension ever survives in an array
output's shape. -/
theorem squeeze_unwrap_confirmed (c s : K → K) (x y z g : PyVal K)
    (a b d : PyVal K) (h : eci2ecef_numpy c s x y z g = .ok (a, b, d)) :
    ((atleast_1d (K := K) x).size = 1 →
      outShape a = none ∧ outShape b = none ∧ outShape d = none) ∧
    (∀ sh : List Nat, outShape a = some sh → 1 ∉ sh) := by
  obtain ⟨⟨hxy, hyz⟩, gs, -, ha, hb, hd⟩ :=
    eci2ecef_numpy_ok_decomp c s x y z g a b d h
  subst ha hb hd
  constructor
  · intro hone
    have hfx : (atleast_1d x).shape.filter (fun m => m != 1) = [] :=
      filter_ne_one_of_prod_one _ hone
    have hfy : (atleast_1d y).shape.filter (fun m => m != 1) = [] := by
      rw [← hxy]; exact hfx
    have hfz : (atleast_1d z).shape.filter (fun m => m != 1) = [] := by
      rw [← hyz, ← hxy]; exact hfx
    exact ⟨by rw [outShape_squeeze_getitem0]; simp [squeezedShapeOpt, hfx],
           by rw [outShape_squeeze_getitem0]; simp [squeezedShapeOpt, hfy],
           by rw [outShape_squeeze_getitem0]; simp [squeezedShapeOpt, hfz]⟩
  · intro sh hsh
    rw [outShape_squeeze_getitem0] at hsh
    simp only [squeezedShapeOpt] at hsh
    split_ifs at hsh with hemp
    obtain rfl := Option.some.inj hsh
    exact one_not_mem_filter _

theorem squeeze_unwrap_confirmed_witness :
    (eci2ecef_numpy c0 s0 (.arr ⟨[1, 1], [5]⟩) (.arr ⟨[1, 1], [6]⟩)
        (.arr ⟨[1, 1], [7]⟩) (.scalar 0) = .ok (.scalar 5, .scalar 6, .scalar 7)) ∧
    ((atleast_1d (K := ℤ) (.arr ⟨[1, 1], [5]⟩)).size = 1 →
      outShape (K := ℤ) (.scalar 5) = none ∧ outShape (K := ℤ) (.scalar 6) = none ∧
      outShape (K := ℤ) (.scalar 7) = none) ∧
    (∀ sh : List Nat, outShape (K := ℤ) (.scalar 5) = some sh → 1 ∉ sh) :=
  ⟨by decide,
   (squeeze_unwrap_confirmed c0 s0 (.arr ⟨[1, 1], [5]⟩) (.arr ⟨[1, 1], [6]⟩)
      (.arr ⟨[1, 1], [7]⟩) (.scalar 0) (.scalar 5) (.scalar 6) (.scalar 7)
      (by decide)).1,
   (squeeze_unwrap_confirmed c0 s0 (.arr ⟨[1, 1], [5]⟩) (.arr ⟨[1, 1], [6]⟩)
      (.arr ⟨[1, 1], [7]⟩) (.scalar 0) (.scalar 5) (.scalar 6) (.scalar 7)
      (by decide)).2⟩

/-- Claim C10: on the Sidereal Rotation Engine path of both directions, the
third output component carries exactly the third input component's values,
for every well-formed input and every angle (the matrix's last row, and the
transpose's last column, is [0, 0, 1]). -/
theorem z_passthrough_confirmed (c s : K → K) (x y z g : PyVal K)
    (hwx : x.WF) (hwy : y.WF) (hwz : z.WF) (hwg : g.WF) (a b d : PyVal K) :
    (eci2ecef_numpy c s x y z g = .ok (a, b, d) →
      dataOf d = (atleast_1d z).data) ∧
    (ecef2eci none c s x y z g = .ok (a, b, d) →
      dataOf d = (atleast_1d z).data) := by
  have hlx := atleast_1d_length x hwx
  have hly := atleast_1d_length y hwy
  have hlz := atleast_1d_length z hwz
  have hlg := atleast_1d_length g hwg
  constructor
  · intro h
    obtain ⟨⟨hxy, hyz⟩, gs, hgs, -, -, hd⟩ :=
      eci2ecef_numpy_ok_decomp c s x y z g a b d h
    subst hd
    have hyl : (atleast_1d y).data.length = (atleast_1d x).data.length := by
      rw [hly, hlx, hxy]
    have hzl : (atleast_1d z).data.length = (atleast_1d x).data.length := by
      rw [hlz, hlx, hxy, hyz]
    have hgl : gs.length = (atleast_1d x).data.length := by
      rcases hgs with ⟨rfl, hsz⟩ | ⟨rfl, hsz⟩
      · simp only [broadcastTo1, List.length_replicate]
        simp only [NDArray.size, broadcastTo1, List.prod_cons, List.prod_nil] at hsz
        rw [hlx]
        omega
      · rw [hlg, hlx]
        exact hsz.symm
    rw [rotRows_third (fun gg => R3 c s gg) (R3_mulVec_third c s) _ _ _ _ hyl hzl hgl]
    exact dataOf_squeeze_getitem0 _ _ hlz
  · intro h
    obtain ⟨⟨hxy, hyz⟩, hsz, -, -, hd⟩ :=
      ecef2eci_none_ok_decomp c s x y z g a b d h
    subst hd
    have hyl : (atleast_1d y).data.length = (atleast_1d x).data.length := by
      rw [hly, hlx, hxy]
    have hzl : (atleast_1d z).data.length = (atleast_1d x).data.length := by
      rw [hlz, hlx, hxy, hyz]
    have hgl : (atleast_1d g).data.length = (atleast_1d x).data.length := by
      rw [hlg, hlx]
      exact hsz.symm
    rw [show dataOf (PyVal.arr ⟨(atleast_1d z).shape,
          (rotRows (fun gg => (R3 c s gg).transpose) (atleast_1d x).data
            (atleast_1d y).data (atleast_1d z).data (atleast_1d g).data).2.2⟩) =
        (rotRows (fun gg => (R3 c s gg).transpose) (atleast_1d x).data
            (atleast_1d y).data (atleast_1d z).data (atleast_1d g).data).2.2 from rfl]
    exact rotRows_third _ (R3_transpose_mulVec_third c s) _ _ _ _ hyl hzl hgl

theorem z_passthrough_confirmed_witness :
    ((PyVal.arr ⟨[2], ([1, 2] : List ℤ)⟩).WF ∧ (PyVal.arr ⟨[2], ([3, 4] : List ℤ)⟩).WF ∧
     (PyVal.arr ⟨[2], ([5, 6] : List ℤ)⟩).WF ∧ (PyVal.scalar (0 : ℤ)).WF) ∧
    (eci2ecef_numpy c0 s0 (.arr ⟨[2], [1, 2]⟩) (.arr ⟨[2], [3, 4]⟩)
        (.arr ⟨[2], [5, 6]⟩) (.scalar 0) =
      .ok (.arr ⟨[2], [1, 2]⟩, .arr ⟨[2], [3, 4]⟩, .arr ⟨[2], [5, 6]⟩) →
      dataOf (.arr ⟨[2], ([5, 6] : List ℤ)⟩) =
        (atleast_1d (K := ℤ) (.arr ⟨[2], [5, 6]⟩)).data) :=
  ⟨⟨rfl, rfl, rfl, trivial⟩,
   (z_passthrough_confirmed c0 s0 (.arr ⟨[2], [1, 2]⟩) (.arr ⟨[2], [3, 4]⟩)
      (.arr ⟨[2], [5, 6]⟩) (.scalar 0) rfl rfl rfl trivial
      (.arr ⟨[2], [1, 2]⟩) (.arr ⟨[2], [3, 4]⟩) (.arr ⟨[2], [5, 6]⟩)).1⟩
